import Mathlib

/-!
Verification development for the MiniLabo ESP8266 channel registry and its
UDP remote-synchronization protocol.

The definitions below are a shallow embedding of the C++ sources:
  * `src/core/IORegistry.{h,cpp}` — the channel table, `updateRemoteValue`,
    `readRaw`, `convert`, `snapshot` and configuration loading (`begin`);
  * `src/services/UdpService.cpp` — inbound packet dispatch
    (`handleIncomingPacket`, `applyRemoteValue`) and the discovery scan
    (`discoverPeers`).

Modelling conventions:
  * Arduino `String` is Lean `String`; `String::trim` is `String.trim` and
    `equalsIgnoreCase` compares ASCII-lowercased character lists.
  * C `float` values are modelled as `Option ℚ`: `some q` is a finite float
    of value `q`, `none` is a non-finite float (NaN/Inf).  This matches the
    code, which tests every float with `isFiniteNumber` before use.
  * `millis()` timestamps are `Nat`; unsigned 32-bit subtraction is made
    explicit with `u32sub`.
  * JSON documents (ArduinoJson) are the inductive `Json`; the `obj[key] | d`
    defaulting operator becomes the `jStrOr`/`jNumOr`/`jIntOr` helpers, which
    yield the default when the field is missing or of the wrong type.
-/

/-- `hasText` in `IORegistry.cpp` / `UdpService.cpp`: non-empty string. -/
def hasText (s : String) : Bool := s.length > 0

/-- ASCII lowercase of a string's characters (Arduino `toLowerCase`). -/
def lowerStr (s : String) : List Char := s.data.map Char.toLower

/-- Arduino `String::equalsIgnoreCase`. -/
def eqIgnoreCase (a b : String) : Bool := lowerStr a == lowerStr b

/-- ASCII lowercase as a string (Arduino `String::toLowerCase`). -/
def strLower (s : String) : String := String.mk (s.data.map Char.toLower)

/-- Arduino `String::trim`: strip leading and trailing whitespace. -/
def trimStr (s : String) : String :=
  String.mk (((s.data.dropWhile Char.isWhitespace).reverse.dropWhile
    Char.isWhitespace).reverse)

/-- Truncation to `unsigned long` (32-bit) range. -/
def u32 (n : Nat) : Nat := n % 4294967296

/-- Unsigned 32-bit subtraction `a - b`, as C computes it on `unsigned long`. -/
def u32sub (a b : Nat) : Nat := (u32 a + (4294967296 - u32 b)) % 4294967296

/-- Conversion of an integer to `uint8_t` (mod 2^8). -/
def u8 (i : Int) : Nat := (i % 256).toNat

/-- Conversion of an integer to `uint16_t` (mod 2^16). -/
def u16 (i : Int) : Nat := (i % 65536).toNat

/-- `IORegistry::RemoteInfo` (IORegistry.h, lines 71-84): the configured
descriptor of a udp-in channel's remote producer. -/
structure RemoteInfo where
  mac : String
  ip : String
  hostname : String
  rxPort : Nat
  txPort : Nat
  channelId : String
  channelLabel : String
  channelType : String
  channelIndex : Int
  channelUnit : String
deriving Repr, DecidableEq

/-- `RemoteInfo()` default constructor: empty strings, zero ports/index. -/
def RemoteInfo.empty : RemoteInfo :=
  { mac := "", ip := "", hostname := "", rxPort := 0, txPort := 0,
    channelId := "", channelLabel := "", channelType := "", channelIndex := 0,
    channelUnit := "" }

/-- `IORegistry::Channel` (IORegistry.h, lines 86-104). -/
structure Channel where
  id : String
  type : String
  index : Nat
  k : Rat
  b : Rat
  unit : String
  isUdpIn : Bool
  hasRemote : Bool
  remote : RemoteInfo
  resolvedMac : String
  resolvedIp : String
  resolvedHostname : String
  lastRemoteRaw : Rat
  lastRemoteValue : Rat
  remoteHasRaw : Bool
  remoteHasValue : Bool
  remoteLastUpdate : Nat
deriving Repr, DecidableEq

/-- The eight arguments of `IORegistry::updateRemoteValue`, as supplied by the
caller.  `raw`/`value` are floats: `none` models a non-finite NaN/Inf float. -/
structure UpdateArgs where
  mac : String
  ip : String
  channelId : String
  channelLabel : String
  raw : Option Rat
  value : Option Rat
  unit : String
  hostname : String
deriving Repr, DecidableEq

/-- The trimmed local variables of `updateRemoteValue`
(`macTrim`, `ipTrim`, `idTrim`, `labelTrim`, `unitTrim`, `hostTrim`). -/
structure UpdateInput where
  macTrim : String
  ipTrim : String
  idTrim : String
  labelTrim : String
  raw : Option Rat
  value : Option Rat
  unitTrim : String
  hostTrim : String
deriving Repr, DecidableEq

/-- The trimming prologue of `updateRemoteValue` (IORegistry.cpp 655-660). -/
def UpdateArgs.trimmed (a : UpdateArgs) : UpdateInput :=
  { macTrim := trimStr a.mac, ipTrim := trimStr a.ip,
    idTrim := trimStr a.channelId, labelTrim := trimStr a.channelLabel,
    raw := a.raw, value := a.value,
    unitTrim := trimStr a.unit, hostTrim := trimStr a.hostname }

/-- Identity matching of one channel (IORegistry.cpp 672-693): with a
descriptor, any of the four cross comparisons of non-empty strings; without a
descriptor, the channel's own id against the non-empty incoming id/label. -/
def channelIdMatches (ch : Channel) (idTrim labelTrim : String) : Bool :=
  if ch.hasRemote then
    (hasText ch.remote.channelId && hasText idTrim
      && eqIgnoreCase ch.remote.channelId idTrim)
    || (hasText ch.remote.channelId && hasText labelTrim
      && eqIgnoreCase ch.remote.channelId labelTrim)
    || (hasText ch.remote.channelLabel && hasText idTrim
      && eqIgnoreCase ch.remote.channelLabel idTrim)
    || (hasText ch.remote.channelLabel && hasText labelTrim
      && eqIgnoreCase ch.remote.channelLabel labelTrim)
  else
    (hasText idTrim && eqIgnoreCase ch.id idTrim)
    || (hasText labelTrim && eqIgnoreCase ch.id labelTrim)

/-- `requireHostMatch` of IORegistry.cpp 697-718: set when the descriptor
specifies at least one of mac/ip/hostname. -/
def channelRequiresHost (ch : Channel) : Bool :=
  hasText ch.remote.mac || hasText ch.remote.ip || hasText ch.remote.hostname

/-- `hostMatches` of IORegistry.cpp 697-718: any one configured descriptor
field equal (case-insensitively) to the non-empty incoming field. -/
def channelHostMatches (ch : Channel) (macTrim ipTrim hostTrim : String) : Bool :=
  (hasText ch.remote.mac && hasText macTrim
    && eqIgnoreCase ch.remote.mac macTrim)
  || (hasText ch.remote.ip && hasText ipTrim
    && eqIgnoreCase ch.remote.ip ipTrim)
  || (hasText ch.remote.hostname && hasText hostTrim
    && eqIgnoreCase ch.remote.hostname hostTrim)

/-- Cache-recording step of `updateRemoteValue` (IORegistry.cpp 724-734):
stamp the update time, record finite raw/value, seed value from raw when no
value was ever cached. -/
def applyCached (raw value : Option Rat) (now : Nat) (ch : Channel) : Channel :=
  let ch1 := { ch with remoteLastUpdate := now }
  let ch2 := match raw with
    | some r => { ch1 with lastRemoteRaw := r, remoteHasRaw := true }
    | none => ch1
  match value with
  | some v => { ch2 with lastRemoteValue := v, remoteHasValue := true }
  | none => match raw with
    | some r => if ch2.remoteHasValue then ch2 else { ch2 with lastRemoteValue := r }
    | none => ch2

/-- Unit backfill (IORegistry.cpp 736-743). -/
def applyUnit (unitTrim : String) (ch : Channel) : Channel :=
  if hasText unitTrim then
    let ch1 := if !hasText ch.remote.channelUnit then
        { ch with remote := { ch.remote with channelUnit := unitTrim } } else ch
    if !hasText ch1.unit then { ch1 with unit := unitTrim } else ch1
  else ch

/-- Descriptor id/label backfill for channels with a descriptor
(IORegistry.cpp 745-752). -/
def applyDescriptorBackfill (idTrim labelTrim : String) (ch : Channel) : Channel :=
  if ch.hasRemote then
    let ch1 := if !hasText ch.remote.channelId && hasText idTrim then
        { ch with remote := { ch.remote with channelId := idTrim } } else ch
    if !hasText ch1.remote.channelLabel && hasText labelTrim then
      { ch1 with remote := { ch1.remote with channelLabel := labelTrim } } else ch1
  else ch

/-- Resolved sender identity recording (IORegistry.cpp 754-762). -/
def applyResolved (macTrim ipTrim hostTrim : String) (ch : Channel) : Channel :=
  let ch1 := if hasText macTrim then { ch with resolvedMac := macTrim } else ch
  let ch2 := if hasText ipTrim then { ch1 with resolvedIp := ipTrim } else ch1
  if hasText hostTrim then { ch2 with resolvedHostname := hostTrim } else ch2

/-- Descriptor synthesis for channels without one (IORegistry.cpp 764-775). -/
def applySynthDescriptor (idTrim labelTrim : String) (ch : Channel) : Channel :=
  if !ch.hasRemote then
    let ch1 := if hasText idTrim then
        { ch with remote := { ch.remote with channelId := idTrim } } else ch
    let ch2 := if hasText labelTrim then
        { ch1 with remote := { ch1.remote with channelLabel := labelTrim } }
      else if !hasText ch1.remote.channelLabel && hasText idTrim then
        { ch1 with remote := { ch1.remote with channelLabel := idTrim } }
      else ch1
    { ch2 with hasRemote := hasText ch2.remote.channelId
        || hasText ch2.remote.channelLabel }
  else ch

/-- Descriptor host backfill (IORegistry.cpp 776-784). -/
def applyHostBackfill (macTrim ipTrim hostTrim : String) (ch : Channel) : Channel :=
  let ch1 := if !hasText ch.remote.mac && hasText macTrim then
      { ch with remote := { ch.remote with mac := macTrim } } else ch
  let ch2 := if !hasText ch1.remote.ip && hasText ipTrim then
      { ch1 with remote := { ch1.remote with ip := ipTrim } } else ch1
  if !hasText ch2.remote.hostname && hasText hostTrim then
    { ch2 with remote := { ch2.remote with hostname := hostTrim } } else ch2

/-- The full mutation applied to a matched channel
(IORegistry.cpp 724-784, in source order). -/
def applyRemoteUpdate (inp : UpdateInput) (now : Nat) (ch : Channel) : Channel :=
  applyHostBackfill inp.macTrim inp.ipTrim inp.hostTrim
    (applySynthDescriptor inp.idTrim inp.labelTrim
      (applyResolved inp.macTrim inp.ipTrim inp.hostTrim
        (applyDescriptorBackfill inp.idTrim inp.labelTrim
          (applyUnit inp.unitTrim
            (applyCached inp.raw inp.value now ch)))))

/-- One iteration of the channel loop of `updateRemoteValue`
(IORegistry.cpp 667-787): skip non-udp-in channels, skip on identity or host
filter failure, otherwise apply the update and count the channel. -/
def processChannel (inp : UpdateInput) (now : Nat) (ch : Channel) : Channel × Nat :=
  if !ch.isUdpIn then (ch, 0)
  else if !channelIdMatches ch inp.idTrim inp.labelTrim then (ch, 0)
  else if ch.hasRemote && channelRequiresHost ch
      && !channelHostMatches ch inp.macTrim inp.ipTrim inp.hostTrim then (ch, 0)
  else (applyRemoteUpdate inp now ch, 1)

/-- `IORegistry::updateRemoteValue` (IORegistry.cpp 650-799): each channel is
processed independently; returns the updated table and the update count. -/
def updateRemoteValue (reg : List Channel) (a : UpdateArgs) (now : Nat) :
    List Channel × Nat :=
  let inp := a.trimmed
  (reg.map (fun ch => (processChannel inp now ch).1),
   (reg.map (fun ch => (processChannel inp now ch).2)).sum)

/-- The hardware environment visible to `readRaw`: the built-in ADC sample,
the ADS1115 per-index samples, and whether the ADS1115 lazily initialized
successfully (`m_adsInitialized` after `ensureAdsReady`). -/
structure HwEnv where
  a0 : Rat
  ads : Nat → Rat
  adsInitialized : Bool

/-- `IORegistry::readRaw` (IORegistry.cpp 234-269): linear search by exact id;
udp-in channels return the cached raw, else the cached value, else 0; local
kinds read the hardware; unknown id or kind returns 0. -/
def readRaw (env : HwEnv) (reg : List Channel) (id : String) : Rat :=
  match reg.find? (fun ch => ch.id == id) with
  | none => 0
  | some ch =>
    if ch.isUdpIn then
      if ch.remoteHasRaw then ch.lastRemoteRaw
      else if ch.remoteHasValue then ch.lastRemoteValue
      else 0
    else if ch.type == "a0" then env.a0
    else if ch.type == "ads1115" then
      if env.adsInitialized && ch.index < 4 then env.ads ch.index else 0
    else 0

/-- `IORegistry::convert` (IORegistry.cpp 271-278): `k*raw + b` for the first
channel with the given id, 0 when unknown. -/
def convert (reg : List Channel) (id : String) (raw : Rat) : Rat :=
  match reg.find? (fun ch => ch.id == id) with
  | none => 0
  | some ch => ch.k * raw + ch.b

/-- `IORegistry::readValue` (IORegistry.cpp 280-283). -/
def readValue (env : HwEnv) (reg : List Channel) (id : String) : Rat :=
  convert reg id (readRaw env reg id)

/-- `staleThreshold` of `IORegistry::snapshot` (IORegistry.cpp 503). -/
def staleThreshold : Nat := 5000

/-- The `remote` object emitted by `snapshot` for a udp-in channel
(IORegistry.cpp 516-584).  The verbatim descriptor echo of lines 520-547
(channel_id/label/type/index/unit, mac/ip/hostname, ports) repeats
configuration covered by `Channel.remote` and is omitted here. -/
structure SnapshotRemoteInfo where
  configured : Bool
  status : String
  ageMs : Int
  lastUpdateMs : Option Nat
  lastRaw : Option Rat
  lastValue : Option Rat
  rawSource : Option String
  sourceMac : Option String
  sourceIp : Option String
  sourceHostname : Option String
deriving Repr, DecidableEq

/-- Status/age derivation of `snapshot` for one udp-in channel
(IORegistry.cpp 549-584). -/
def snapshotRemoteOf (now : Nat) (ch : Channel) : SnapshotRemoteInfo :=
  let base : SnapshotRemoteInfo :=
    { configured := ch.hasRemote, status := "", ageMs := 0,
      lastUpdateMs := none, lastRaw := none, lastValue := none,
      rawSource := none,
      sourceMac := if hasText ch.resolvedMac then some ch.resolvedMac
        else if hasText ch.remote.mac then some ch.remote.mac else none,
      sourceIp := if hasText ch.resolvedIp then some ch.resolvedIp
        else if hasText ch.remote.ip then some ch.remote.ip else none,
      sourceHostname := if hasText ch.resolvedHostname then some ch.resolvedHostname
        else if hasText ch.remote.hostname then some ch.remote.hostname else none }
  if ch.remoteHasRaw || ch.remoteHasValue then
    let age := u32sub now ch.remoteLastUpdate
    { base with
      ageMs := (age : Int),
      status := if age > staleThreshold then "stale" else "online",
      lastUpdateMs := some ch.remoteLastUpdate,
      lastRaw := if ch.remoteHasRaw then some ch.lastRemoteRaw else none,
      lastValue := if ch.remoteHasValue then some ch.lastRemoteValue else none,
      rawSource := if ch.remoteHasRaw then some "remote_raw"
        else some "remote_value" }
  else { base with status := "waiting", ageMs := -1 }

/-- One element of the `channels` array emitted by `snapshot`
(IORegistry.cpp 504-586). -/
structure SnapshotEntry where
  id : String
  type : String
  index : Nat
  k : Rat
  b : Rat
  unit : String
  raw : Rat
  value : Rat
  remote : Option SnapshotRemoteInfo
deriving Repr, DecidableEq

/-- `snapshot` body for one channel: static fields, a live read, and the
remote summary for udp-in channels (IORegistry.cpp 504-586). -/
def snapshotEntry (env : HwEnv) (reg : List Channel) (now : Nat)
    (ch : Channel) : SnapshotEntry :=
  let raw := readRaw env reg ch.id
  { id := ch.id, type := ch.type, index := ch.index, k := ch.k, b := ch.b,
    unit := ch.unit, raw := raw, value := convert reg ch.id raw,
    remote := if ch.isUdpIn then some (snapshotRemoteOf now ch) else none }

/-- `IORegistry::snapshot` (IORegistry.cpp 499-587): one entry per configured
channel, in table order. -/
def snapshot (env : HwEnv) (reg : List Channel) (now : Nat) : List SnapshotEntry :=
  reg.map (snapshotEntry env reg now)

/-- JSON documents as ArduinoJson sees them (one per datagram / config area).
Numbers are `ℚ`: every numeric JSON literal is finite. -/
inductive Json where
  | null
  | jbool (b : Bool)
  | num (q : Rat)
  | str (s : String)
  | arr (items : List Json)
  | obj (fields : List (String × Json))
deriving Repr

/-- Field access `j[key]` on an object; `null` otherwise (ArduinoJson returns
a null variant for missing keys and non-objects). -/
def Json.lookup (j : Json) (key : String) : Json :=
  match j with
  | .obj fields => (((fields.find? (fun p => p.1 == key)).map Prod.snd)).getD .null
  | _ => .null

/-- `containsKey`. -/
def Json.hasKey (j : Json) (key : String) : Bool :=
  match j with
  | .obj fields => fields.any (fun p => p.1 == key)
  | _ => false

/-- `is<JsonObject>()`. -/
def Json.isObj : Json → Bool
  | .obj _ => true
  | _ => false

/-- `is<JsonArray>()`. -/
def Json.isArr : Json → Bool
  | .arr _ => true
  | _ => false

/-- `v | default` for a string target: the value when it is a string,
otherwise the default. -/
def jStrOr (j : Json) (d : String) : String :=
  match j with
  | .str s => s
  | _ => d

/-- `v | default` for a float target: any JSON number converts. -/
def jNumOr (j : Json) (d : Rat) : Rat :=
  match j with
  | .num q => q
  | _ => d

/-- `v | default` for an integer target: integral JSON numbers convert. -/
def jIntOr (j : Json) (d : Int) : Int :=
  match j with
  | .num q => if q.den = 1 then q.num else d
  | _ => d

/-- `trimmedVariant` (IORegistry.cpp 19-30, UdpService.cpp 21-32): the trimmed
string when the variant holds a string, else the empty string. -/
def trimmedVariant (j : Json) : String :=
  match j with
  | .str s => trimStr s
  | _ => ""

/-- The recurring `if (!hasText(a)) a = b;` fallback idiom: the first string
when non-empty, otherwise the second. -/
def firstText (a b : String) : String :=
  if hasText a then a else b

/-- `IORegistry::kMaxChannels` (IORegistry.h 108). -/
def kMaxChannels : Nat := 16

/-- Parsing of one channel object by `IORegistry::begin`
(IORegistry.cpp 104-181).  `seq` is `m_channelCount` after the increment, so
the default id of the n-th loaded channel is `"ch" ++ n`. -/
def parseChannelEntry (v : Json) (seq : Nat) : Channel :=
  let id := trimStr (jStrOr (v.lookup "id") ("ch" ++ toString seq))
  let ty := strLower (jStrOr (v.lookup "type") "a0")
  let base : Channel :=
    { id := id, type := ty, index := u8 (jIntOr (v.lookup "index") 0),
      k := jNumOr (v.lookup "k") 1, b := jNumOr (v.lookup "b") 0,
      unit := jStrOr (v.lookup "unit") "V",
      isUdpIn := ty == "udp-in" || ty == "udp",
      hasRemote := false, remote := RemoteInfo.empty,
      resolvedMac := "", resolvedIp := "", resolvedHostname := "",
      lastRemoteRaw := 0, lastRemoteValue := 0,
      remoteHasRaw := false, remoteHasValue := false, remoteLastUpdate := 0 }
  if base.isUdpIn && v.hasKey "remote" && (v.lookup "remote").isObj then
    let r := v.lookup "remote"
    let cid := firstText (trimmedVariant (r.lookup "channelId"))
      (firstText (trimmedVariant (r.lookup "channel_id"))
        (trimmedVariant (r.lookup "channel")))
    let clabel0 := firstText (trimmedVariant (r.lookup "channelLabel"))
      (trimmedVariant (r.lookup "channel_label"))
    let clabel := if !hasText clabel0 && hasText cid then cid else clabel0
    let cunit := firstText (trimmedVariant (r.lookup "channelUnit"))
      (firstText (trimmedVariant (r.lookup "channel_unit"))
        (trimmedVariant (r.lookup "unit")))
    { base with
      hasRemote := true,
      unit := if !hasText base.unit && hasText cunit then cunit else base.unit,
      remote :=
        { mac := firstText (trimmedVariant (r.lookup "mac"))
            (trimmedVariant (r.lookup "source_mac")),
          ip := firstText (trimmedVariant (r.lookup "ip"))
            (trimmedVariant (r.lookup "source_ip")),
          hostname := firstText (trimmedVariant (r.lookup "hostname"))
            (trimmedVariant (r.lookup "source_hostname")),
          rxPort := u16 (jIntOr (r.lookup "rx_port") (jIntOr (r.lookup "rxPort") 0)),
          txPort := u16 (jIntOr (r.lookup "tx_port") (jIntOr (r.lookup "txPort") 0)),
          channelId := cid, channelLabel := clabel,
          channelType := firstText (trimmedVariant (r.lookup "channelType"))
            (trimmedVariant (r.lookup "channel_type")),
          channelIndex := jIntOr (r.lookup "channelIndex")
            (jIntOr (r.lookup "channel_index") (jIntOr (r.lookup "index") 0)),
          channelUnit := cunit } }
  else base

/-- The channel-loading loop of `IORegistry::begin` (IORegistry.cpp 98-207):
stop at `kMaxChannels`, skip non-object entries, parse the rest in order.
`count` is the running `m_channelCount`. -/
def loadChannelsAux : List Json → Nat → List Channel
  | [], _ => []
  | v :: rest, count =>
    if kMaxChannels ≤ count then []
    else match v with
      | .obj fields => parseChannelEntry (.obj fields) (count + 1)
          :: loadChannelsAux rest (count + 1)
      | _ => loadChannelsAux rest count

/-- Extraction of the channel array from the `io` config document
(IORegistry.cpp 80-95): a bare array, or the `channels` member of an object;
otherwise no channels are configured. -/
def ioChannelsArray (doc : Json) : Option (List Json) :=
  match doc with
  | .arr xs => some xs
  | .obj fields =>
    if (Json.obj fields).hasKey "channels" then
      match (Json.obj fields).lookup "channels" with
      | .arr xs => some xs
      | _ => none
    else none
  | _ => none

/-- `IORegistry::begin`'s resulting channel table for a config document. -/
def loadChannels (doc : Json) : List Channel :=
  match ioChannelsArray doc with
  | some xs => loadChannelsAux xs 0
  | none => []

/-- Digit list to number, most significant first. -/
def digitsToNat (ds : List Char) : Nat :=
  ds.foldl (fun a c => a * 10 + (c.toNat - 48)) 0

/-- Model of `strtof` on its decimal forms (UdpService.cpp 63-72): skip
leading whitespace, optional sign, digits with optional fraction and
exponent; `none` when no digit is consumed (`endPtr == raw`).  The hex and
inf/nan spellings accepted by the C library are not modelled; inf/nan would
be rejected by the caller's finiteness check anyway. -/
def parseDecimal (s : String) : Option Rat :=
  let cs := s.data.dropWhile Char.isWhitespace
  let sign : Int := match cs with
    | '-' :: _ => -1
    | _ => 1
  let cs1 := match cs with
    | '-' :: rest => rest
    | '+' :: rest => rest
    | _ => cs
  let intPart := cs1.takeWhile Char.isDigit
  let cs2 := cs1.dropWhile Char.isDigit
  let fracPart := match cs2 with
    | '.' :: rest => rest.takeWhile Char.isDigit
    | _ => []
  let cs3 := match cs2 with
    | '.' :: rest => rest.dropWhile Char.isDigit
    | _ => cs2
  if intPart.isEmpty && fracPart.isEmpty then none
  else
    let mantissa : Rat :=
      (digitsToNat intPart : Rat) + (digitsToNat fracPart : Rat) / (10 : Rat) ^ fracPart.length
    let expBody := match cs3 with
      | 'e' :: rest => some rest
      | 'E' :: rest => some rest
      | _ => none
    let e : Int := match expBody with
      | some ('-' :: r2) => -(digitsToNat (r2.takeWhile Char.isDigit) : Int)
      | some ('+' :: r2) => (digitsToNat (r2.takeWhile Char.isDigit) : Int)
      | some r2 => (digitsToNat (r2.takeWhile Char.isDigit) : Int)
      | none => 0
    some (sign * mantissa * (10 : Rat) ^ e)

/-- `extractFloat` (UdpService.cpp 38-74): numbers convert directly (JSON
numbers are finite); strings go through `strtof` and must parse and be
finite; other variants fail. -/
def extractFloat (j : Json) : Option Rat :=
  match j with
  | .num q => some q
  | .str s => parseDecimal s
  | _ => none

/-- The two-stage pattern `if (!extractFloat(obj[key], out) && !channelObj.isNull())
extractFloat(channelObj[key], out)` of UdpService.cpp 257-265. -/
def extractFloat2 (a b : Json) (chOk : Bool) : Option Rat :=
  match extractFloat a with
  | some q => some q
  | none => if chOk then extractFloat b else none

/-- Channel-id extraction of `applyRemoteValue` (UdpService.cpp 224-236):
`channelId`, `channel_id`, `id`, then the nested channel object's `id` and
`channel_id`. -/
def extractChannelId (payload chObj : Json) (chOk : Bool) : String :=
  let cid0 := firstText (trimmedVariant (payload.lookup "channelId"))
    (firstText (trimmedVariant (payload.lookup "channel_id"))
      (trimmedVariant (payload.lookup "id")))
  let cid1 := if !hasText cid0 && chOk then trimmedVariant (chObj.lookup "id") else cid0
  if !hasText cid1 && chOk then trimmedVariant (chObj.lookup "channel_id") else cid1

/-- Channel-label extraction of `applyRemoteValue` (UdpService.cpp 238-253):
`channelLabel`, `channel_label`, `label`, the nested channel object's `label`
and `channel_label`, then `name`. -/
def extractChannelLabel (payload chObj : Json) (chOk : Bool) : String :=
  let clab0 := firstText (trimmedVariant (payload.lookup "channelLabel"))
    (firstText (trimmedVariant (payload.lookup "channel_label"))
      (trimmedVariant (payload.lookup "label")))
  let clab1 := if !hasText clab0 && chOk then trimmedVariant (chObj.lookup "label") else clab0
  let clab2 := if !hasText clab1 && chOk then trimmedVariant (chObj.lookup "channel_label") else clab1
  firstText clab2 (trimmedVariant (payload.lookup "name"))

/-- `UdpService::applyRemoteValue` (UdpService.cpp 211-316): extract id,
label, raw/value/converted, unit and sender identity from the payload (with
nested-`channel` fallbacks), then call `updateRemoteValue`.  Returns the new
registry, the update count, and the list of `updateRemoteValue` calls made
(zero or one). -/
def applyRemoteValue (payload : Json) (mac hostname ipStr : String)
    (reg : List Channel) (now : Nat) :
    List Channel × Nat × List UpdateArgs :=
  if !payload.isObj then (reg, 0, [])
  else
    let chObj := payload.lookup "channel"
    let chOk := chObj.isObj
    let cid := extractChannelId payload chObj chOk
    let clab := extractChannelLabel payload chObj chOk
    let raw := extractFloat2 (payload.lookup "raw") (chObj.lookup "raw") chOk
    let value0 := extractFloat2 (payload.lookup "value") (chObj.lookup "value") chOk
    let value := match extractFloat2 (payload.lookup "converted") (chObj.lookup "converted") chOk with
      | some q => some q
      | none => value0
    let unit0 := firstText (trimmedVariant (payload.lookup "unit"))
      (if chOk then trimmedVariant (chObj.lookup "unit") else "")
    let unit1 := firstText unit0 (trimmedVariant (payload.lookup "channel_unit"))
    let unit := firstText unit1
      (if chOk then trimmedVariant (chObj.lookup "channel_unit") else "")
    let srcMac0 := firstText (trimmedVariant (payload.lookup "mac"))
      (firstText (trimmedVariant (payload.lookup "source_mac")) mac)
    let srcHost0 := firstText (trimmedVariant (payload.lookup "hostname"))
      (firstText (trimmedVariant (payload.lookup "source_hostname")) hostname)
    let srcIp0 := firstText (trimmedVariant (payload.lookup "ip"))
      (firstText (trimmedVariant (payload.lookup "source_ip")) ipStr)
    let srcMac := if !hasText srcMac0 && chOk then trimmedVariant (chObj.lookup "mac") else srcMac0
    let srcHost := if !hasText srcHost0 && chOk then trimmedVariant (chObj.lookup "hostname") else srcHost0
    let srcIp := if !hasText srcIp0 && chOk then trimmedVariant (chObj.lookup "ip") else srcIp0
    if !hasText cid && !hasText clab then (reg, 0, [])
    else
      let args : UpdateArgs :=
        { mac := srcMac, ip := srcIp, channelId := cid, channelLabel := clab,
          raw := raw, value := value, unit := unit, hostname := srcHost }
      let res := updateRemoteValue reg args now
      (res.1, res.2, [args])

/-- `doc["cmd"] | doc["type"] | ""` (UdpService.cpp 161). -/
def cmdOf (doc : Json) : String :=
  jStrOr (doc.lookup "cmd") (jStrOr (doc.lookup "type") "")

/-- Sender MAC extraction (UdpService.cpp 166-169). -/
def sourceMacOf (doc : Json) : String :=
  firstText (trimmedVariant (doc.lookup "mac")) (trimmedVariant (doc.lookup "source_mac"))

/-- Sender hostname extraction (UdpService.cpp 170-173). -/
def sourceHostnameOf (doc : Json) : String :=
  firstText (trimmedVariant (doc.lookup "hostname")) (trimmedVariant (doc.lookup "source"))

/-- Sender IP extraction with transport fallback (UdpService.cpp 174-177). -/
def sourceIpOf (doc : Json) (senderIp : String) : String :=
  firstText (trimmedVariant (doc.lookup "ip")) senderIp

/-- The `values`/`channels` array of a values/snapshot message
(UdpService.cpp 187-190): `doc["values"]` as an array, else `doc["channels"]`
as an array, else none. -/
def valuesArrayOf (doc : Json) : Option (List Json) :=
  match doc.lookup "values" with
  | .arr xs => some xs
  | _ => match doc.lookup "channels" with
    | .arr xs => some xs
    | _ => none

/-- The per-element loop of the values/snapshot branch
(UdpService.cpp 192-196): each array element is forwarded independently to
`applyRemoteValue`, threading the registry and accumulating count and calls. -/
def processValuesPhase (xs : List Json) (mac hostname ipStr : String)
    (reg : List Channel) (now : Nat) :
    List Channel × Nat × List UpdateArgs :=
  xs.foldl (fun acc entry =>
      let res := applyRemoteValue entry mac hostname ipStr acc.1 now
      (res.1, acc.2.1 + res.2.1, acc.2.2 ++ res.2.2))
    (reg, 0, [])

/-- The observable effect of handling one inbound datagram: the new registry,
whether a discovery reply was sent, and the `updateRemoteValue` call trace. -/
structure PacketEffect where
  reg : List Channel
  sentReply : Bool
  calls : List UpdateArgs
deriving Repr

/-- `UdpService::handleIncomingPacket` (UdpService.cpp 150-209) after JSON
parsing: dispatch on `cmd`/`type`; `value` messages are one update;
`values`/`snapshot` messages forward each array element, then fall back (when
no update resulted) to the nested `channel` object, then to the top-level
message itself when it carries an `id`. -/
def handleIncomingPacket (doc : Json) (senderIp : String)
    (reg : List Channel) (now : Nat) : PacketEffect :=
  let cmd := cmdOf doc
  if cmd = "" then { reg := reg, sentReply := false, calls := [] }
  else
    let mac := sourceMacOf doc
    let host := sourceHostnameOf doc
    let ip := sourceIpOf doc senderIp
    if cmd = "discover" ∨ cmd = "list_inputs" then
      { reg := reg, sentReply := true, calls := [] }
    else if cmd = "value" ∨ cmd = "channel_value" then
      let res := applyRemoteValue doc mac host ip reg now
      { reg := res.1, sentReply := false, calls := res.2.2 }
    else if cmd = "values" ∨ cmd = "snapshot" then
      let phase := match valuesArrayOf doc with
        | some xs => processValuesPhase xs mac host ip reg now
        | none => (reg, 0, [])
      if phase.2.1 = 0 then
        let chObj := doc.lookup "channel"
        let after := if chObj.isObj then applyRemoteValue chObj mac host ip phase.1 now
          else (phase.1, 0, [])
        if after.2.1 = 0 ∧ doc.hasKey "id" then
          let top := applyRemoteValue doc mac host ip after.1 now
          { reg := top.1, sentReply := false,
            calls := phase.2.2 ++ after.2.2 ++ top.2.2 }
        else { reg := after.1, sentReply := false, calls := phase.2.2 ++ after.2.2 }
      else { reg := phase.1, sentReply := false, calls := phase.2.2 }
    else { reg := reg, sentReply := false, calls := [] }

/-- One advertised input of a `discover_reply`, normalized by the scan
(UdpService.cpp 444-455). -/
structure DiscoveredInput where
  id : String
  type : String
  index : Int
  unit : String
  k : Rat
  b : Rat
deriving Repr, DecidableEq

/-- One device entry of the discovery report (UdpService.cpp 414-457). -/
structure DiscoveredDevice where
  mac : String
  hostname : String
  ip : String
  rxPort : Nat
  txPort : Nat
  inputs : List DiscoveredInput
  lastSeenMs : Nat
deriving Repr, DecidableEq

/-- Normalization of the `inputs` array of a reply (UdpService.cpp 441-456):
non-object entries are skipped; each object is reduced to
id/type/index/unit/k/b with defaults. -/
def normalizeInputs (j : Json) : List DiscoveredInput :=
  match j with
  | .arr xs => xs.filterMap (fun e =>
      if e.isObj then
        some { id := jStrOr (e.lookup "id") "",
               type := jStrOr (e.lookup "type") "",
               index := jIntOr (e.lookup "index") 0,
               unit := jStrOr (e.lookup "unit") "",
               k := jNumOr (e.lookup "k") 0,
               b := jNumOr (e.lookup "b") 0 }
      else none)
  | _ => []

/-- Parsing of one `discover_reply` into a device record
(UdpService.cpp 414-457): fields default to the sender address and the
service's own ports; `lastSeenMs` is the elapsed scan time of this reply. -/
def parseDiscoverReply (reply : Json) (senderIp : String)
    (defRx defTx : Nat) (elapsed : Nat) : DiscoveredDevice :=
  { mac := jStrOr (reply.lookup "mac") "",
    hostname := jStrOr (reply.lookup "hostname") "",
    ip := jStrOr (reply.lookup "ip") senderIp,
    rxPort := match reply.lookup "rx_port" with
      | .num q => if q.den = 1 then u16 q.num else defRx
      | _ => defRx,
    txPort := match reply.lookup "tx_port" with
      | .num q => if q.den = 1 then u16 q.num else defTx
      | _ => defTx,
    inputs := normalizeInputs (reply.lookup "inputs"),
    lastSeenMs := elapsed }

/-- Merging one reply into the scan's device set (UdpService.cpp 420-457):
when a recorded device has the same MAC (case-insensitively, non-empty), its
record is cleared and rewritten in place from the new reply; otherwise the
reply is appended as a new device. -/
def mergeDevice (devices : List DiscoveredDevice) (d : DiscoveredDevice) :
    List DiscoveredDevice :=
  if d.mac.length > 0 then
    match devices.findIdx? (fun e => eqIgnoreCase d.mac e.mac) with
    | some i => devices.set i d
    | none => devices ++ [d]
  else devices ++ [d]

/-- The scan's view of the world: the devices collected so far and the
channel registry (mutated when non-reply traffic is routed through the
normal handler). -/
structure ScanState where
  devices : List DiscoveredDevice
  reg : List Channel
deriving Repr

/-- One received datagram during a scan: its parsed JSON, the elapsed scan
time at reception, and the transport-level sender address. -/
structure ScanPacket where
  body : Json
  elapsed : Nat
  senderIp : String

/-- Handling of one datagram inside the `discoverPeers` poll loop
(UdpService.cpp 385-460): `discover_reply` messages are merged into the
device set; anything else goes through `handleIncomingPacket`. -/
def scanStep (defRx defTx now : Nat) (st : ScanState) (pkt : ScanPacket) :
    ScanState :=
  let t := jStrOr (pkt.body.lookup "type") (jStrOr (pkt.body.lookup "cmd") "")
  if t = "discover_reply" then
    let d := parseDiscoverReply pkt.body pkt.senderIp defRx defTx pkt.elapsed
    { st with devices := mergeDevice st.devices d }
  else
    { st with reg := (handleIncomingPacket pkt.body pkt.senderIp st.reg now).reg }

/-- `UdpService::discoverPeers` (UdpService.cpp 361-465) over the list of
datagrams received before the timeout: broadcast (not modelled), collect
replies starting from an empty device set, then report status. -/
def discoverPeers (running : Bool) (defRx defTx now : Nat)
    (reg : List Channel) (pkts : List ScanPacket) : ScanState × String :=
  if !running then ({ devices := [], reg := reg }, "udp_disabled")
  else
    let st := pkts.foldl (scanStep defRx defTx now) { devices := [], reg := reg }
    (st, if st.devices.length > 0 then "ok" else "no_devices")

/-- A non-empty string stays non-empty under `hasText`. -/
theorem hasText_iff {s : String} : hasText s = true ↔ s ≠ "" := by
  constructor
  · intro h he
    subst he
    simp [hasText] at h
  · intro h
    simp only [hasText, decide_eq_true_eq]
    rcases s with ⟨cs⟩
    cases cs with
    | nil => exact absurd rfl h
    | cons c cs => simp [String.length]

/-- Negation form of `hasText_iff`. -/
theorem hasText_false_iff {s : String} : hasText s = false ↔ s = "" := by
  rcases h : hasText s with _ | _
  · simp only [true_iff]
    by_contra he
    have := hasText_iff.mpr he
    rw [h] at this
    exact Bool.false_ne_true this
  · simp only [Bool.true_eq_false, false_iff]
    exact hasText_iff.mp h

/-- `equalsIgnoreCase` is reflexive. -/
theorem eqIgnoreCase_refl (s : String) : eqIgnoreCase s s = true := by
  simp [eqIgnoreCase]

/-- Case-insensitively equal strings are empty together. -/
theorem eqIgnoreCase_hasText {a b : String} (h : eqIgnoreCase a b = true) :
    hasText a = hasText b := by
  have hl : lowerStr a = lowerStr b := by
    simpa [eqIgnoreCase] using h
  have hlen : a.data.length = b.data.length := by
    have := congrArg List.length hl
    simpa [lowerStr] using this
  simp only [hasText, String.length]
  exact congrArg (fun n : Nat => decide (n > 0)) hlen

/-- The parts of a channel state that the metadata backfill never touches:
the value cache. -/
structure CacheState where
  lastRaw : Rat
  lastValue : Rat
  hasRaw : Bool
  hasValue : Bool
deriving Repr, DecidableEq

/-- Projection of a channel to its value cache. -/
def cachedCore (ch : Channel) : CacheState :=
  { lastRaw := ch.lastRemoteRaw, lastValue := ch.lastRemoteValue,
    hasRaw := ch.remoteHasRaw, hasValue := ch.remoteHasValue }

/-- The cache transition of IORegistry.cpp 725-734 as a pure function of the
cache alone. -/
def stepCore (raw value : Option Rat) (c : CacheState) : CacheState :=
  let c1 := match raw with
    | some r => { c with lastRaw := r, hasRaw := true }
    | none => c
  match value with
  | some v => { c1 with lastValue := v, hasValue := true }
  | none => match raw with
    | some r => if c1.hasValue then c1 else { c1 with lastValue := r }
    | none => c1

/-- `applyCached` acts on the cache exactly as `stepCore`. -/
theorem cachedCore_applyCached (raw value : Option Rat) (now : Nat) (ch : Channel) :
    cachedCore (applyCached raw value now ch) = stepCore raw value (cachedCore ch) := by
  cases raw <;> cases value <;>
    simp only [applyCached, stepCore, cachedCore] <;> split_ifs <;> rfl

/-- `applyCached` stamps the update time. -/
theorem remoteLastUpdate_applyCached (raw value : Option Rat) (now : Nat) (ch : Channel) :
    (applyCached raw value now ch).remoteLastUpdate = now := by
  cases raw <;> cases value <;>
    simp only [applyCached] <;> split_ifs <;> rfl

/-- Repeating the same cache transition changes nothing. -/
theorem stepCore_idem (raw value : Option Rat) (c : CacheState) :
    stepCore raw value (stepCore raw value c) = stepCore raw value c := by
  cases raw <;> cases value <;>
    simp only [stepCore] <;> split_ifs <;> simp_all

/-- The channel fields fixed at configuration time. -/
def staticCore (ch : Channel) : String × String × Nat × Rat × Rat × Bool :=
  (ch.id, ch.type, ch.index, ch.k, ch.b, ch.isUdpIn)

theorem staticCore_applyCached (raw value : Option Rat) (now : Nat) (ch : Channel) :
    staticCore (applyCached raw value now ch) = staticCore ch := by
  cases raw <;> cases value <;>
    simp only [applyCached, staticCore] <;> split_ifs <;> rfl

/-- The fields of a channel that the metadata stages of `applyRemoteUpdate`
leave untouched: static fields, cache and timestamp. -/
def inertCore (ch : Channel) :
    (String × String × Nat × Rat × Rat × Bool) × CacheState × Nat :=
  (staticCore ch, cachedCore ch, ch.remoteLastUpdate)

theorem inertCore_applyUnit (u : String) (ch : Channel) :
    inertCore (applyUnit u ch) = inertCore ch := by
  simp only [applyUnit, inertCore, staticCore, cachedCore]
  split_ifs <;> rfl

theorem inertCore_applyDescriptorBackfill (i l : String) (ch : Channel) :
    inertCore (applyDescriptorBackfill i l ch) = inertCore ch := by
  simp only [applyDescriptorBackfill, inertCore, staticCore, cachedCore]
  split_ifs <;> rfl

theorem inertCore_applyResolved (m i h : String) (ch : Channel) :
    inertCore (applyResolved m i h ch) = inertCore ch := by
  simp only [applyResolved, inertCore, staticCore, cachedCore]
  split_ifs <;> rfl

theorem inertCore_applySynthDescriptor (i l : String) (ch : Channel) :
    inertCore (applySynthDescriptor i l ch) = inertCore ch := by
  simp only [applySynthDescriptor, inertCore, staticCore, cachedCore]
  split_ifs <;> rfl

theorem inertCore_applyHostBackfill (m i h : String) (ch : Channel) :
    inertCore (applyHostBackfill m i h ch) = inertCore ch := by
  simp only [applyHostBackfill, inertCore, staticCore, cachedCore]
  split_ifs <;> rfl

/-- Channels with equal inert projections have equal static fields. -/
theorem inert_static {a b : Channel} (h : inertCore a = inertCore b) :
    staticCore a = staticCore b := congrArg Prod.fst h

/-- Channels with equal inert projections have equal caches. -/
theorem inert_cached {a b : Channel} (h : inertCore a = inertCore b) :
    cachedCore a = cachedCore b := congrArg (fun p => p.2.1) h

/-- Channels with equal inert projections have equal update stamps. -/
theorem inert_ts {a b : Channel} (h : inertCore a = inertCore b) :
    a.remoteLastUpdate = b.remoteLastUpdate := congrArg (fun p => p.2.2) h

/-- `applyRemoteUpdate` leaves the static configured fields alone. -/
theorem staticCore_applyRemoteUpdate (inp : UpdateInput) (now : Nat) (ch : Channel) :
    staticCore (applyRemoteUpdate inp now ch) = staticCore ch := by
  unfold applyRemoteUpdate
  exact (inert_static (inertCore_applyHostBackfill _ _ _ _)).trans
    ((inert_static (inertCore_applySynthDescriptor _ _ _)).trans
      ((inert_static (inertCore_applyResolved _ _ _ _)).trans
        ((inert_static (inertCore_applyDescriptorBackfill _ _ _)).trans
          ((inert_static (inertCore_applyUnit _ _)).trans
            (staticCore_applyCached _ _ _ _)))))

/-- `applyRemoteUpdate` acts on the value cache exactly as `stepCore`. -/
theorem cachedCore_applyRemoteUpdate (inp : UpdateInput) (now : Nat) (ch : Channel) :
    cachedCore (applyRemoteUpdate inp now ch) = stepCore inp.raw inp.value (cachedCore ch) := by
  unfold applyRemoteUpdate
  exact (inert_cached (inertCore_applyHostBackfill _ _ _ _)).trans
    ((inert_cached (inertCore_applySynthDescriptor _ _ _)).trans
      ((inert_cached (inertCore_applyResolved _ _ _ _)).trans
        ((inert_cached (inertCore_applyDescriptorBackfill _ _ _)).trans
          ((inert_cached (inertCore_applyUnit _ _)).trans
            (cachedCore_applyCached _ _ _ _)))))

/-- `applyRemoteUpdate` stamps the update time. -/
theorem remoteLastUpdate_applyRemoteUpdate (inp : UpdateInput) (now : Nat) (ch : Channel) :
    (applyRemoteUpdate inp now ch).remoteLastUpdate = now := by
  unfold applyRemoteUpdate
  exact (inert_ts (inertCore_applyHostBackfill _ _ _ _)).trans
    ((inert_ts (inertCore_applySynthDescriptor _ _ _)).trans
      ((inert_ts (inertCore_applyResolved _ _ _ _)).trans
        ((inert_ts (inertCore_applyDescriptorBackfill _ _ _)).trans
          ((inert_ts (inertCore_applyUnit _ _)).trans
            (remoteLastUpdate_applyCached _ _ _ _)))))

/- The update stages are fully characterized by the lemmas above; block the
unifier from delta-unfolding them (the kernel still reduces them freely). -/
attribute [irreducible] applyCached applyUnit applyDescriptorBackfill
attribute [irreducible] applyResolved applySynthDescriptor applyHostBackfill
attribute [irreducible] applyRemoteUpdate

/-- The acceptance guard of the channel loop (IORegistry.cpp 667-722)
factored out: udp-in, identity match, and host filter pass. -/
def channelAccepts (inp : UpdateInput) (ch : Channel) : Bool :=
  ch.isUdpIn && channelIdMatches ch inp.idTrim inp.labelTrim
    && !(ch.hasRemote && channelRequiresHost ch
      && !channelHostMatches ch inp.macTrim inp.ipTrim inp.hostTrim)

/-- `processChannel` characterized by its guard.  The guard does not depend
on `now`, so whether a channel is updated is time-independent. -/
theorem processChannel_eq (inp : UpdateInput) (now : Nat) (ch : Channel) :
    processChannel inp now ch =
      if channelAccepts inp ch then (applyRemoteUpdate inp now ch, 1) else (ch, 0) := by
  unfold processChannel channelAccepts
  cases h1 : ch.isUdpIn <;>
    cases h2 : channelIdMatches ch inp.idTrim inp.labelTrim <;>
    cases h3 : (ch.hasRemote && channelRequiresHost ch
      && !channelHostMatches ch inp.macTrim inp.ipTrim inp.hostTrim) <;>
    simp [h1, h2, h3]

/-- Count form of `processChannel_eq`. -/
theorem processChannel_count (inp : UpdateInput) (now : Nat) (ch : Channel) :
    (processChannel inp now ch).2 = (if channelAccepts inp ch then 1 else 0) := by
  rw [processChannel_eq]
  split <;> rfl

/-- A rejected channel is returned unchanged. -/
theorem processChannel_skip {inp : UpdateInput} {ch : Channel} (now : Nat)
    (h : channelAccepts inp ch = false) : processChannel inp now ch = (ch, 0) := by
  rw [processChannel_eq, h]
  rfl

/-- An accepted channel gets the full update and counts as one. -/
theorem processChannel_accept {inp : UpdateInput} {ch : Channel} (now : Nat)
    (h : channelAccepts inp ch = true) :
    processChannel inp now ch = (applyRemoteUpdate inp now ch, 1) := by
  rw [processChannel_eq, h]
  rfl

/-- C1: host filter of `updateRemoteValue` is any-of: on a udp-in channel
that passed the identity match, the update is applied iff the channel has no
descriptor, or the descriptor specifies none of mac/ip/hostname, or at least
one specified field equals the incoming field case-insensitively. -/
theorem c1_host_filter_any_of (inp : UpdateInput) (now : Nat) (ch : Channel)
    (hu : ch.isUdpIn = true)
    (hid : channelIdMatches ch inp.idTrim inp.labelTrim = true) :
    (processChannel inp now ch).2 = 1 ↔
      (ch.hasRemote = false
        ∨ (ch.remote.mac = "" ∧ ch.remote.ip = "" ∧ ch.remote.hostname = "")
        ∨ (ch.remote.mac ≠ "" ∧ eqIgnoreCase ch.remote.mac inp.macTrim = true)
        ∨ (ch.remote.ip ≠ "" ∧ eqIgnoreCase ch.remote.ip inp.ipTrim = true)
        ∨ (ch.remote.hostname ≠ ""
            ∧ eqIgnoreCase ch.remote.hostname inp.hostTrim = true)) := by
  rw [processChannel_count]
  have hsel : (if channelAccepts inp ch then (1 : Nat) else 0) = 1
      ↔ channelAccepts inp ch = true := by
    split <;> simp_all
  rw [hsel]
  unfold channelAccepts
  rw [hu, hid]
  cases hr : ch.hasRemote with
  | false => simp
  | true =>
    have hL : (true && true && !(true && channelRequiresHost ch
          && !channelHostMatches ch inp.macTrim inp.ipTrim inp.hostTrim)) = true
        ↔ (channelRequiresHost ch = false
          ∨ channelHostMatches ch inp.macTrim inp.ipTrim inp.hostTrim = true) := by
      cases hq : channelRequiresHost ch <;>
        cases hm : channelHostMatches ch inp.macTrim inp.ipTrim inp.hostTrim <;>
        simp
    rw [hL]
    constructor
    · intro h
      rcases h with hq | hm
      · right
        left
        simp only [channelRequiresHost, Bool.or_eq_false_iff,
          hasText_false_iff] at hq
        exact ⟨hq.1.1, hq.1.2, hq.2⟩
      · simp only [channelHostMatches, Bool.or_eq_true, Bool.and_eq_true,
          hasText_iff] at hm
        rcases hm with (⟨⟨hmac, _⟩, heq⟩ | ⟨⟨hip, _⟩, heq⟩) | ⟨⟨hh, _⟩, heq⟩
        · exact Or.inr (Or.inr (Or.inl ⟨hmac, heq⟩))
        · exact Or.inr (Or.inr (Or.inr (Or.inl ⟨hip, heq⟩)))
        · exact Or.inr (Or.inr (Or.inr (Or.inr ⟨hh, heq⟩)))
    · intro h
      rcases h with hfalse | hnone | ⟨hmac, heq⟩ | ⟨hip, heq⟩ | ⟨hh, heq⟩
      · exact absurd hfalse (by simp)
      · left
        simp only [channelRequiresHost, Bool.or_eq_false_iff, hasText_false_iff]
        exact ⟨⟨hnone.1, hnone.2.1⟩, hnone.2.2⟩
      · right
        have hin : hasText inp.macTrim = true := by
          rw [← eqIgnoreCase_hasText heq]
          exact hasText_iff.mpr hmac
        simp only [channelHostMatches, Bool.or_eq_true, Bool.and_eq_true]
        exact Or.inl (Or.inl ⟨⟨hasText_iff.mpr hmac, hin⟩, heq⟩)
      · right
        have hin : hasText inp.ipTrim = true := by
          rw [← eqIgnoreCase_hasText heq]
          exact hasText_iff.mpr hip
        simp only [channelHostMatches, Bool.or_eq_true, Bool.and_eq_true]
        exact Or.inl (Or.inr ⟨⟨hasText_iff.mpr hip, hin⟩, heq⟩)
      · right
        have hin : hasText inp.hostTrim = true := by
          rw [← eqIgnoreCase_hasText heq]
          exact hasText_iff.mpr hh
        simp only [channelHostMatches, Bool.or_eq_true, Bool.and_eq_true]
        exact Or.inr ⟨⟨hasText_iff.mpr hh, hin⟩, heq⟩

theorem stepCore_hasRaw (raw value : Option Rat) (c : CacheState) :
    (stepCore raw value c).hasRaw = (c.hasRaw || raw.isSome) := by
  cases raw <;> cases value <;> simp only [stepCore, Option.isSome] <;>
    (try split_ifs) <;> simp

theorem stepCore_lastRaw (raw value : Option Rat) (c : CacheState) :
    (stepCore raw value c).lastRaw = raw.getD c.lastRaw := by
  cases raw <;> cases value <;> simp only [stepCore, Option.getD] <;>
    split_ifs <;> rfl

theorem stepCore_hasValue (raw value : Option Rat) (c : CacheState) :
    (stepCore raw value c).hasValue = (c.hasValue || value.isSome) := by
  cases raw <;> cases value <;> simp only [stepCore, Option.isSome] <;>
    (try split_ifs) <;> simp

theorem stepCore_lastValue (raw value : Option Rat) (c : CacheState) :
    (stepCore raw value c).lastValue =
      (match value, raw with
        | some v, _ => v
        | none, some r => if c.hasValue = true then c.lastValue else r
        | none, none => c.lastValue) := by
  cases value with
  | some v => cases raw <;> rfl
  | none =>
    cases raw with
    | none => rfl
    | some r =>
      simp only [stepCore]
      cases hv : c.hasValue <;> simp [hv]

/-- Doing nothing to the cache is the `none, none` transition. -/
theorem stepCore_none_none (c : CacheState) : stepCore none none c = c := rfl

/-- `processChannel` never changes the configured static fields. -/
theorem processChannel_static (inp : UpdateInput) (now : Nat) (ch : Channel) :
    staticCore (processChannel inp now ch).1 = staticCore ch := by
  cases hA : channelAccepts inp ch
  · rw [processChannel_skip now hA]
  · exact (congrArg (fun p => staticCore p.1) (processChannel_accept now hA)).trans
      (staticCore_applyRemoteUpdate inp now ch)

/-- `processChannel` leaves non-udp-in channels entirely alone. -/
theorem processChannel_non_udp (inp : UpdateInput) (now : Nat) (ch : Channel)
    (h : ch.isUdpIn = false) : processChannel inp now ch = (ch, 0) := by
  apply processChannel_skip
  simp [channelAccepts, h]

/-- Default-shaped udp-in channel used for concrete instances below. -/
def mkUdpChannel (id : String) : Channel :=
  { id := id, type := "udp-in", index := 0, k := 1, b := 0, unit := "V",
    isUdpIn := true, hasRemote := false, remote := RemoteInfo.empty,
    resolvedMac := "", resolvedIp := "", resolvedHostname := "",
    lastRemoteRaw := 0, lastRemoteValue := 0, remoteHasRaw := false,
    remoteHasValue := false, remoteLastUpdate := 0 }

/-- C2 counterexample: a udp-in channel without a descriptor whose own id is
empty, receiving an update whose id is also empty.  The claim's without-a-
descriptor clause (incoming id equals the channel id, case-insensitively,
with no non-emptiness proviso) holds — empty equals empty — yet the code
skips the channel unchanged, because it additionally requires the incoming
id/label to be non-empty (IORegistry.cpp 688-692). -/
theorem c2_counterexample :
    (mkUdpChannel "").hasRemote = false
    ∧ (mkUdpChannel "").isUdpIn = true
    ∧ eqIgnoreCase "" (mkUdpChannel "").id = true
    ∧ processChannel
        { macTrim := "", ipTrim := "", idTrim := "", labelTrim := "",
          raw := none, value := none, unitTrim := "", hostTrim := "" }
        5 (mkUdpChannel "")
      = (mkUdpChannel "", 0) := by
  refine ⟨rfl, rfl, rfl, ?_⟩
  exact processChannel_skip 5 (by decide)

/-- C2 (amended): identity matching of `updateRemoteValue`.  For a channel
with a descriptor it holds iff one of the four case-insensitive cross
comparisons between non-empty strings holds; for a channel without a
descriptor iff the incoming id or label is non-empty and equals the
channel's own id case-insensitively; a channel with no identity match is
skipped unchanged. -/
theorem c2_identity_match (inp : UpdateInput) (now : Nat) (ch : Channel)
    (hu : ch.isUdpIn = true) :
    (ch.hasRemote = true →
      (((ch.remote.channelId ≠ "" ∧ inp.idTrim ≠ ""
          ∧ eqIgnoreCase ch.remote.channelId inp.idTrim = true)
        ∨ (ch.remote.channelId ≠ "" ∧ inp.labelTrim ≠ ""
          ∧ eqIgnoreCase ch.remote.channelId inp.labelTrim = true)
        ∨ (ch.remote.channelLabel ≠ "" ∧ inp.idTrim ≠ ""
          ∧ eqIgnoreCase ch.remote.channelLabel inp.idTrim = true)
        ∨ (ch.remote.channelLabel ≠ "" ∧ inp.labelTrim ≠ ""
          ∧ eqIgnoreCase ch.remote.channelLabel inp.labelTrim = true))
        ↔ channelIdMatches ch inp.idTrim inp.labelTrim = true))
    ∧ (ch.hasRemote = false →
      (((inp.idTrim ≠ "" ∧ eqIgnoreCase ch.id inp.idTrim = true)
        ∨ (inp.labelTrim ≠ "" ∧ eqIgnoreCase ch.id inp.labelTrim = true))
        ↔ channelIdMatches ch inp.idTrim inp.labelTrim = true))
    ∧ (channelIdMatches ch inp.idTrim inp.labelTrim = false →
        processChannel inp now ch = (ch, 0)) := by
  refine ⟨?_, ?_, ?_⟩
  · intro hr
    simp only [channelIdMatches, hr, if_true, Bool.or_eq_true, Bool.and_eq_true,
      hasText_iff]
    tauto
  · intro hr
    simp only [channelIdMatches, hr, Bool.false_eq_true, if_false,
      Bool.or_eq_true, Bool.and_eq_true, hasText_iff]
    try tauto
  · intro hm
    apply processChannel_skip
    simp [channelAccepts, hm]

/-- C3: the apply step of `updateRemoteValue` on a matched channel: the
caller's raw is recorded iff it is finite, the value iff it is finite; when
only raw is finite and no value was ever cached the value is seeded from
raw; the update timestamp is set to now. -/
theorem c3_apply_records_cache (inp : UpdateInput) (now : Nat) (ch : Channel)
    (h : (processChannel inp now ch).2 = 1) :
    (processChannel inp now ch).1.remoteLastUpdate = now
    ∧ (processChannel inp now ch).1.remoteHasRaw = (ch.remoteHasRaw || inp.raw.isSome)
    ∧ (processChannel inp now ch).1.lastRemoteRaw = inp.raw.getD ch.lastRemoteRaw
    ∧ (processChannel inp now ch).1.remoteHasValue = (ch.remoteHasValue || inp.value.isSome)
    ∧ (processChannel inp now ch).1.lastRemoteValue =
        (match inp.value, inp.raw with
          | some v, _ => v
          | none, some r => if ch.remoteHasValue = true then ch.lastRemoteValue else r
          | none, none => ch.lastRemoteValue) := by
  have hacc : channelAccepts inp ch = true := by
    cases hA : channelAccepts inp ch
    · rw [processChannel_skip now hA] at h
      simp at h
    · rfl
  rw [processChannel_accept now hacc]
  have hcc := cachedCore_applyRemoteUpdate inp now ch
  refine ⟨remoteLastUpdate_applyRemoteUpdate inp now ch, ?_, ?_, ?_, ?_⟩
  · have := congrArg CacheState.hasRaw hcc
    simpa [cachedCore, stepCore_hasRaw] using this
  · have := congrArg CacheState.lastRaw hcc
    simpa [cachedCore, stepCore_lastRaw] using this
  · have := congrArg CacheState.hasValue hcc
    simpa [cachedCore, stepCore_hasValue] using this
  · have := congrArg CacheState.lastValue hcc
    simpa [cachedCore, stepCore_lastValue] using this

/-- C9: runtime frame invariant of `updateRemoteValue`: the table length is
preserved, every channel keeps its id, kind (`type`), index, k and b (and its
udp-in flag, so a channel's kind never changes), and a channel that is not
udp-in is not mutated at all. -/
theorem c9_frame_invariant (reg : List Channel) (a : UpdateArgs) (now : Nat) :
    (updateRemoteValue reg a now).1.length = reg.length
    ∧ ∀ i (hi : i < reg.length) (hi2 : i < (updateRemoteValue reg a now).1.length),
        (((updateRemoteValue reg a now).1.get ⟨i, hi2⟩).id = (reg.get ⟨i, hi⟩).id
          ∧ ((updateRemoteValue reg a now).1.get ⟨i, hi2⟩).type = (reg.get ⟨i, hi⟩).type
          ∧ ((updateRemoteValue reg a now).1.get ⟨i, hi2⟩).index = (reg.get ⟨i, hi⟩).index
          ∧ ((updateRemoteValue reg a now).1.get ⟨i, hi2⟩).k = (reg.get ⟨i, hi⟩).k
          ∧ ((updateRemoteValue reg a now).1.get ⟨i, hi2⟩).b = (reg.get ⟨i, hi⟩).b
          ∧ ((updateRemoteValue reg a now).1.get ⟨i, hi2⟩).isUdpIn = (reg.get ⟨i, hi⟩).isUdpIn)
        ∧ ((reg.get ⟨i, hi⟩).isUdpIn = false →
            (updateRemoteValue reg a now).1.get ⟨i, hi2⟩ = reg.get ⟨i, hi⟩) := by
  constructor
  · simp [updateRemoteValue]
  · intro i hi hi2
    have hg : (updateRemoteValue reg a now).1.get ⟨i, hi2⟩
        = (processChannel a.trimmed now (reg.get ⟨i, hi⟩)).1 := by
      simp [updateRemoteValue, List.get_map]
    rw [hg]
    have hst := processChannel_static a.trimmed now (reg.get ⟨i, hi⟩)
    refine ⟨⟨congrArg (fun t => t.1) hst, congrArg (fun t => t.2.1) hst,
      congrArg (fun t => t.2.2.1) hst, congrArg (fun t => t.2.2.2.1) hst,
      congrArg (fun t => t.2.2.2.2.1) hst, congrArg (fun t => t.2.2.2.2.2) hst⟩, ?_⟩
    intro hnu
    exact congrArg Prod.fst (processChannel_non_udp a.trimmed now (reg.get ⟨i, hi⟩) hnu)

/-- C10: a matched udp-in channel whose update carries neither a finite raw
nor a finite value is still counted and has its timestamp set to now, while
the presence flags stay false, so `snapshot` keeps reporting status
`"waiting"` with `age_ms = -1` at any later time. -/
theorem c10_timestamp_without_data (inp : UpdateInput) (now : Nat) (ch : Channel)
    (hacc : channelAccepts inp ch = true)
    (hraw : inp.raw = none) (hval : inp.value = none)
    (hfr : ch.remoteHasRaw = false) (hfv : ch.remoteHasValue = false) :
    (processChannel inp now ch).2 = 1
    ∧ (processChannel inp now ch).1.remoteLastUpdate = now
    ∧ (processChannel inp now ch).1.remoteHasRaw = false
    ∧ (processChannel inp now ch).1.remoteHasValue = false
    ∧ ∀ now2 : Nat,
        (snapshotRemoteOf now2 (processChannel inp now ch).1).status = "waiting"
        ∧ (snapshotRemoteOf now2 (processChannel inp now ch).1).ageMs = -1 := by
  have h2 := processChannel_accept now hacc
  have hfst : (processChannel inp now ch).1 = applyRemoteUpdate inp now ch :=
    congrArg Prod.fst h2
  have hcc := cachedCore_applyRemoteUpdate inp now ch
  rw [hraw, hval, stepCore_none_none] at hcc
  have hhr : (applyRemoteUpdate inp now ch).remoteHasRaw = false := by
    have h3 := congrArg CacheState.hasRaw hcc
    simp only [cachedCore] at h3
    rw [h3, hfr]
  have hhv : (applyRemoteUpdate inp now ch).remoteHasValue = false := by
    have h3 := congrArg CacheState.hasValue hcc
    simp only [cachedCore] at h3
    rw [h3, hfv]
  refine ⟨congrArg Prod.snd h2, ?_, ?_, ?_, ?_⟩
  · rw [hfst]
    exact remoteLastUpdate_applyRemoteUpdate inp now ch
  · rw [hfst]
    exact hhr
  · rw [hfst]
    exact hhv
  · intro now2
    rw [hfst]
    constructor <;> simp [snapshotRemoteOf, hhr, hhv]

/-- C4: snapshot status derivation for a udp-in channel: never-received
channels report `"waiting"` with `age_ms = -1`; otherwise `age_ms` is now
minus the last update time (within one 32-bit epoch), `"online"` when the
age does not exceed the fixed 5000 ms threshold and `"stale"` when it
exceeds it. -/
theorem c4_snapshot_status (env : HwEnv) (reg : List Channel) (now : Nat)
    (ch : Channel) (hu : ch.isUdpIn = true) :
    (snapshotEntry env reg now ch).remote = some (snapshotRemoteOf now ch)
    ∧ (ch.remoteHasRaw = false ∧ ch.remoteHasValue = false →
        (snapshotRemoteOf now ch).status = "waiting"
        ∧ (snapshotRemoteOf now ch).ageMs = -1)
    ∧ (¬(ch.remoteHasRaw = false ∧ ch.remoteHasValue = false) →
        ch.remoteLastUpdate ≤ now → now < 4294967296 →
        (snapshotRemoteOf now ch).ageMs = ((now - ch.remoteLastUpdate : Nat) : Int)
        ∧ (now - ch.remoteLastUpdate ≤ 5000 →
            (snapshotRemoteOf now ch).status = "online")
        ∧ (5000 < now - ch.remoteLastUpdate →
            (snapshotRemoteOf now ch).status = "stale")) := by
  refine ⟨by simp [snapshotEntry, hu], ?_, ?_⟩
  · rintro ⟨h1, h2⟩
    constructor <;> simp [snapshotRemoteOf, h1, h2]
  · intro hne hle hlt
    have hdata : (ch.remoteHasRaw || ch.remoteHasValue) = true := by
      cases hr : ch.remoteHasRaw <;> cases hv : ch.remoteHasValue <;> simp_all
    have hag : u32sub now ch.remoteLastUpdate = now - ch.remoteLastUpdate := by
      unfold u32sub u32
      omega
    refine ⟨by simp [snapshotRemoteOf, hdata, hag], ?_, ?_⟩
    · intro hon
      have : ¬(now - ch.remoteLastUpdate > staleThreshold) := by
        unfold staleThreshold
        omega
      simp [snapshotRemoteOf, hdata, hag, this]
    · intro hst
      have : now - ch.remoteLastUpdate > staleThreshold := by
        unfold staleThreshold
        omega
      simp [snapshotRemoteOf, hdata, hag, this]

/-- A local-adc channel used as the C5 counterexample. -/
def chA0 : Channel :=
  { id := "a", type := "a0", index := 0, k := 1, b := 0, unit := "V",
    isUdpIn := false, hasRemote := false, remote := RemoteInfo.empty,
    resolvedMac := "", resolvedIp := "", resolvedHostname := "",
    lastRemoteRaw := 0, lastRemoteValue := 0, remoteHasRaw := false,
    remoteHasValue := false, remoteLastUpdate := 0 }

/-- Arguments naming channel `"a"` with finite raw and value. -/
def argsA : UpdateArgs :=
  { mac := "", ip := "", channelId := "a", channelLabel := "",
    raw := some 1, value := some 2, unit := "", hostname := "" }

/-- C5 counterexample: on a registry holding one channel that is not udp-in,
two successive `updateRemoteValue` calls (at times 100 and 200) leave the
channel's `lastUpdateTimestamp` at 0: it is not set to the time of the
second call, contradicting the claim's universal "lastUpdateTimestamp is
updated". -/
theorem c5_counterexample :
    ((updateRemoteValue (updateRemoteValue [chA0] argsA 100).1 argsA 200).1.map
        Channel.remoteLastUpdate) = [0]
    ∧ (0 : Nat) ≠ 200 := by
  constructor
  · have h1 : (updateRemoteValue [chA0] argsA 100).1 = [chA0] := by
      have := processChannel_non_udp argsA.trimmed 100 chA0 rfl
      simp [updateRemoteValue, this]
    rw [h1]
    have h2 := processChannel_non_udp argsA.trimmed 200 chA0 rfl
    simp [updateRemoteValue, h2]
    rfl
  · decide

/-- One channel processed twice with the same arguments: the second pass
leaves the cache exactly as after the first pass; if the second pass counts
the channel its timestamp becomes the second time, and if it skips the
channel nothing changes at all. -/
theorem processChannel_twice (inp : UpdateInput) (now1 now2 : Nat) (ch : Channel) :
    cachedCore (processChannel inp now2 (processChannel inp now1 ch).1).1
      = cachedCore (processChannel inp now1 ch).1
    ∧ ((processChannel inp now2 (processChannel inp now1 ch).1).2 = 1 →
        (processChannel inp now2 (processChannel inp now1 ch).1).1.remoteLastUpdate = now2)
    ∧ ((processChannel inp now2 (processChannel inp now1 ch).1).2 = 0 →
        (processChannel inp now2 (processChannel inp now1 ch).1).1
          = (processChannel inp now1 ch).1) := by
  cases hA2 : channelAccepts inp (processChannel inp now1 ch).1 with
  | false =>
    have hskip := processChannel_skip now2 hA2
    refine ⟨by rw [hskip], ?_, ?_⟩
    · intro h
      rw [hskip] at h
      simp at h
    · intro _
      rw [hskip]
  | true =>
    have hacc := processChannel_accept now2 hA2
    have hfst : (processChannel inp now2 (processChannel inp now1 ch).1).1
        = applyRemoteUpdate inp now2 (processChannel inp now1 ch).1 :=
      congrArg Prod.fst hacc
    have hA1 : channelAccepts inp ch = true := by
      cases hA1 : channelAccepts inp ch with
      | false =>
        have h1 : (processChannel inp now1 ch).1 = ch :=
          congrArg Prod.fst (processChannel_skip now1 hA1)
        rw [h1] at hA2
        rw [hA1] at hA2
        exact absurd hA2 (by simp)
      | true => rfl
    have h1 : (processChannel inp now1 ch).1 = applyRemoteUpdate inp now1 ch :=
      congrArg Prod.fst (processChannel_accept now1 hA1)
    refine ⟨?_, ?_, ?_⟩
    · rw [hfst]
      rw [cachedCore_applyRemoteUpdate]
      rw [h1, cachedCore_applyRemoteUpdate]
      exact stepCore_idem inp.raw inp.value (cachedCore ch)
    · intro _
      rw [hfst]
      exact remoteLastUpdate_applyRemoteUpdate inp now2 _
    · intro h
      rw [congrArg Prod.snd hacc] at h
      simp at h

/-- C5 (amended): calling `updateRemoteValue` twice in succession with
identical arguments leaves every channel's cached raw/value (and presence
flags) equal to their state after the first call; every channel the second
call updates has its `lastUpdateTimestamp` set to the time of the second
call, and every channel it skips is left completely unchanged. -/
theorem c5_idempotent_cache (reg : List Channel) (a : UpdateArgs) (now1 now2 : Nat) :
    (updateRemoteValue reg a now1).1.length = reg.length
    ∧ (updateRemoteValue (updateRemoteValue reg a now1).1 a now2).1.length
        = (updateRemoteValue reg a now1).1.length
    ∧ ∀ i (h1 : i < (updateRemoteValue reg a now1).1.length)
        (h2 : i < (updateRemoteValue (updateRemoteValue reg a now1).1 a now2).1.length),
        cachedCore ((updateRemoteValue (updateRemoteValue reg a now1).1 a now2).1.get ⟨i, h2⟩)
          = cachedCore ((updateRemoteValue reg a now1).1.get ⟨i, h1⟩)
        ∧ ((processChannel a.trimmed now2 ((updateRemoteValue reg a now1).1.get ⟨i, h1⟩)).2 = 1 →
            ((updateRemoteValue (updateRemoteValue reg a now1).1 a now2).1.get ⟨i, h2⟩).remoteLastUpdate
              = now2)
        ∧ ((processChannel a.trimmed now2 ((updateRemoteValue reg a now1).1.get ⟨i, h1⟩)).2 = 0 →
            (updateRemoteValue (updateRemoteValue reg a now1).1 a now2).1.get ⟨i, h2⟩
              = (updateRemoteValue reg a now1).1.get ⟨i, h1⟩) := by
  refine ⟨by simp [updateRemoteValue], by simp [updateRemoteValue], ?_⟩
  intro i h1 h2
  have hreg : i < reg.length := by
    simpa [updateRemoteValue] using h1
  have hg1 : (updateRemoteValue reg a now1).1.get ⟨i, h1⟩
      = (processChannel a.trimmed now1 (reg.get ⟨i, hreg⟩)).1 := by
    simp [updateRemoteValue, List.get_map]
  have hg2 : (updateRemoteValue (updateRemoteValue reg a now1).1 a now2).1.get ⟨i, h2⟩
      = (processChannel a.trimmed now2 ((updateRemoteValue reg a now1).1.get ⟨i, h1⟩)).1 := by
    simp [updateRemoteValue, List.get_map]
  rw [hg2, hg1]
  have := processChannel_twice a.trimmed now1 now2 (reg.get ⟨i, hreg⟩)
  exact this

/-- The channel-loading loop only ever looks at the first
`kMaxChannels - count` object entries: everything beyond the bound is
dropped, deterministically, first object entries in document order winning. -/
theorem loadChannelsAux_truncate (xs : List Json) (c : Nat) :
    loadChannelsAux xs c
      = loadChannelsAux ((xs.filter Json.isObj).take (kMaxChannels - c)) c := by
  induction xs generalizing c with
  | nil => simp [loadChannelsAux]
  | cons v rest ih =>
    by_cases hc : kMaxChannels ≤ c
    · have h0 : kMaxChannels - c = 0 := Nat.sub_eq_zero_of_le hc
      cases v <;> simp [loadChannelsAux, hc, h0]
    · have hsucc : kMaxChannels - c = (kMaxChannels - (c + 1)) + 1 := by omega
      cases v <;>
        simp [loadChannelsAux, hc, hsucc, Json.isObj, List.filter_cons, ih]

/-- The loading loop never produces more than `kMaxChannels - count`
channels. -/
theorem loadChannelsAux_length (xs : List Json) (c : Nat) :
    (loadChannelsAux xs c).length ≤ kMaxChannels - c := by
  induction xs generalizing c with
  | nil => simp [loadChannelsAux]
  | cons v rest ih =>
    by_cases hc : kMaxChannels ≤ c
    · cases v <;> simp [loadChannelsAux, hc]
    · have h1 := ih c
      have h2 := ih (c + 1)
      cases v <;> simp [loadChannelsAux, hc] <;> omega

/-- C6: deterministic truncation at the table bound.  A configuration
document yields at most `kMaxChannels = 16` channels; the resulting table
equals the one loaded from just the first 16 object entries in document
order (so every entry beyond the bound is silently dropped); and every
subsequent query enumerates exactly this table (snapshot shown here — all
queries read only the loaded table). -/
theorem c6_truncation (doc : Json) (xs : List Json)
    (h : ioChannelsArray doc = some xs) :
    (loadChannels doc).length ≤ kMaxChannels
    ∧ loadChannels doc = loadChannelsAux ((xs.filter Json.isObj).take kMaxChannels) 0
    ∧ ∀ env now, (snapshot env (loadChannels doc) now).length = (loadChannels doc).length := by
  have hl : loadChannels doc = loadChannelsAux xs 0 := by
    simp [loadChannels, h]
  refine ⟨?_, ?_, ?_⟩
  · rw [hl]
    have := loadChannelsAux_length xs 0
    omega
  · rw [hl]
    have := loadChannelsAux_truncate xs 0
    simpa using this
  · intro env now
    simp [snapshot]

/-- `firstText` is non-empty iff either argument is. -/
theorem hasText_firstText (a b : String) :
    hasText (firstText a b) = (hasText a || hasText b) := by
  unfold firstText
  cases h : hasText a <;> simp [h]

/-- Only objects have keys. -/
theorem Json.isObj_of_hasKey {j : Json} {k : String} (h : j.hasKey k = true) :
    j.isObj = true := by
  cases j <;> simp_all [Json.hasKey, Json.isObj]

/-- A payload with a usable top-level `id` always yields a non-empty
extracted channel id. -/
theorem extractChannelId_of_id {payload chObj : Json} {chOk : Bool}
    (h : hasText (trimmedVariant (payload.lookup "id")) = true) :
    hasText (extractChannelId payload chObj chOk) = true := by
  have h0 : hasText (firstText (trimmedVariant (payload.lookup "channelId"))
      (firstText (trimmedVariant (payload.lookup "channel_id"))
        (trimmedVariant (payload.lookup "id")))) = true := by
    simp [hasText_firstText, h]
  simp [extractChannelId, h0]

/-- A payload that is an object and carries a usable top-level `id` produces
exactly one `updateRemoteValue` call. -/
theorem applyRemoteValue_calls_of_id {payload : Json} (mac host ip : String)
    (reg : List Channel) (now : Nat)
    (hobj : payload.isObj = true)
    (hid : hasText (trimmedVariant (payload.lookup "id")) = true) :
    ((applyRemoteValue payload mac host ip reg now).2.2).length = 1 := by
  have hcid : hasText (extractChannelId payload (payload.lookup "channel")
      ((payload.lookup "channel").isObj)) = true :=
    extractChannelId_of_id hid
  simp [applyRemoteValue, hobj, hcid]

/-- The values/snapshot message used in the C7 counterexample: empty
`values` array, a top-level `id`, plus a nested `channel` object whose id
matches nothing. -/
def docC7 : Json :=
  Json.obj [("cmd", Json.str "values"), ("values", Json.arr []),
    ("channel", Json.obj [("id", Json.str "zz")]), ("id", Json.str "top")]

/-- C7 counterexample: on an empty registry, `docC7` — a `values` message
whose array is empty and which carries a top-level `id` — produces two
update attempts (`updateRemoteValue` calls), not exactly one: the nested
`channel` object is attempted first (and updates nothing), then the
top-level message itself. -/
theorem c7_counterexample :
    (handleIncomingPacket docC7 "1.2.3.4" [] 0).calls.length = 2 := by
  decide

/-- C7 (amended): dispatch of a values/snapshot message.  When the `values`
(or `channels`) array is present and its elements produce at least one
update, the handler's `updateRemoteValue` calls are exactly the independent
per-element forwards and no fallback runs.  When the array is empty or
absent, the nested `channel` object is absent too, and the message carries a
usable top-level `id`, exactly one update attempt is made. -/
theorem c7_values_dispatch (doc : Json) (senderIp : String) (reg : List Channel)
    (now : Nat) (hcmd : cmdOf doc = "values" ∨ cmdOf doc = "snapshot") :
    (∀ xs, valuesArrayOf doc = some xs →
        0 < (processValuesPhase xs (sourceMacOf doc) (sourceHostnameOf doc)
          (sourceIpOf doc senderIp) reg now).2.1 →
        (handleIncomingPacket doc senderIp reg now).calls
          = (processValuesPhase xs (sourceMacOf doc) (sourceHostnameOf doc)
            (sourceIpOf doc senderIp) reg now).2.2)
    ∧ ((valuesArrayOf doc = none ∨ valuesArrayOf doc = some []) →
        (doc.lookup "channel").isObj = false →
        doc.hasKey "id" = true →
        hasText (trimmedVariant (doc.lookup "id")) = true →
        (handleIncomingPacket doc senderIp reg now).calls.length = 1) := by
  have hne1 : ¬(cmdOf doc = "") := by
    rcases hcmd with h | h <;> simp [h]
  have hne2 : ¬(cmdOf doc = "discover" ∨ cmdOf doc = "list_inputs") := by
    rcases hcmd with h | h <;> simp [h]
  have hne3 : ¬(cmdOf doc = "value" ∨ cmdOf doc = "channel_value") := by
    rcases hcmd with h | h <;> simp [h]
  constructor
  · intro xs hxs hpos
    have hn0 : ¬((processValuesPhase xs (sourceMacOf doc) (sourceHostnameOf doc)
        (sourceIpOf doc senderIp) reg now).2.1 = 0) := by omega
    simp only [handleIncomingPacket, if_neg hne1, if_neg hne2, if_neg hne3,
      if_pos hcmd, hxs, if_neg hn0]
  · intro harr hch hid1 hid2
    have hobj : doc.isObj = true := Json.isObj_of_hasKey hid1
    have htop : ((applyRemoteValue doc (sourceMacOf doc) (sourceHostnameOf doc)
        (sourceIpOf doc senderIp) reg now).2.2).length = 1 :=
      applyRemoteValue_calls_of_id _ _ _ reg now hobj hid2
    rcases harr with h | h <;>
      simp only [handleIncomingPacket, if_neg hne1, if_neg hne2, if_neg hne3,
        if_pos hcmd, h, processValuesPhase, List.foldl_nil, hch,
        Bool.false_eq_true, if_false, if_pos (And.intro rfl hid1),
        List.nil_append, List.length_append, htop] <;>
      simp [hid1, htop]

/-- Merging into an empty result set appends the reply. -/
theorem mergeDevice_nil (d : DiscoveredDevice) : mergeDevice [] d = [d] := by
  unfold mergeDevice
  split_ifs <;> simp [List.findIdx?]

/-- C8: discovery-scan deduplication by MAC.  Merging a reply whose MAC
case-insensitively equals that of an already-recorded device replaces that
device's record in place (never appends); and a scan that receives two
`discover_reply` datagrams from the same MAC yields exactly one device
entry — the parse of the later reply, whose `lastSeenMs` is the later
elapsed time. -/
theorem c8_discovery_dedup :
    (∀ (devices : List DiscoveredDevice) (d : DiscoveredDevice) (i : Nat),
      d.mac ≠ "" →
      devices.findIdx? (fun e => eqIgnoreCase d.mac e.mac) = some i →
      mergeDevice devices d = devices.set i d)
    ∧ ∀ (r1 r2 : Json) (ip1 ip2 : String) (t1 t2 defRx defTx now : Nat)
        (reg : List Channel),
      jStrOr (r1.lookup "type") (jStrOr (r1.lookup "cmd") "") = "discover_reply" →
      jStrOr (r2.lookup "type") (jStrOr (r2.lookup "cmd") "") = "discover_reply" →
      (parseDiscoverReply r2 ip2 defRx defTx t2).mac ≠ "" →
      eqIgnoreCase (parseDiscoverReply r2 ip2 defRx defTx t2).mac
        (parseDiscoverReply r1 ip1 defRx defTx t1).mac = true →
      (([⟨r1, t1, ip1⟩, ⟨r2, t2, ip2⟩] : List ScanPacket).foldl
          (scanStep defRx defTx now) { devices := [], reg := reg }).devices
        = [parseDiscoverReply r2 ip2 defRx defTx t2]
      ∧ (parseDiscoverReply r2 ip2 defRx defTx t2).lastSeenMs = t2 := by
  have hlen : ∀ s : String, s ≠ "" → 0 < s.length := by
    intro s hs
    have := hasText_iff.mpr hs
    simpa [hasText] using this
  constructor
  · intro devices d i hne hfind
    unfold mergeDevice
    rw [if_pos (hlen d.mac hne), hfind]
  · intro r1 r2 ip1 ip2 t1 t2 defRx defTx now reg h1 h2 hne2 heq
    refine ⟨?_, rfl⟩
    simp only [List.foldl_cons, List.foldl_nil]
    have hs1 : scanStep defRx defTx now { devices := [], reg := reg } ⟨r1, t1, ip1⟩
        = { devices := [parseDiscoverReply r1 ip1 defRx defTx t1], reg := reg } := by
      simp [scanStep, h1, mergeDevice_nil]
    rw [hs1]
    have hfind : [parseDiscoverReply r1 ip1 defRx defTx t1].findIdx?
        (fun e => eqIgnoreCase (parseDiscoverReply r2 ip2 defRx defTx t2).mac e.mac)
        = some 0 := by
      simp [List.findIdx?, heq]
    simp [scanStep, h2, mergeDevice, hlen _ hne2, hfind]

/-- Descriptor specifying a producer MAC and IP and the channel id `Temp1`. -/
def remW : RemoteInfo :=
  { mac := "AA", ip := "10.0.0.1", hostname := "", rxPort := 0, txPort := 0,
    channelId := "Temp1", channelLabel := "", channelType := "",
    channelIndex := 0, channelUnit := "" }

/-- A configured udp-in channel with the descriptor `remW`. -/
def chW : Channel := { mkUdpChannel "t1" with hasRemote := true, remote := remW }

/-- An update whose id matches `chW` case-insensitively and whose MAC matches
its descriptor (while the IP differs). -/
def inpW : UpdateInput :=
  { macTrim := "aa", ipTrim := "10.9.9.9", idTrim := "TEMP1", labelTrim := "",
    raw := some 3, value := none, unitTrim := "", hostTrim := "" }

theorem c1_host_filter_any_of_witness :
    (processChannel inpW 7 chW).2 = 1 ↔
      (chW.hasRemote = false
        ∨ (chW.remote.mac = "" ∧ chW.remote.ip = "" ∧ chW.remote.hostname = "")
        ∨ (chW.remote.mac ≠ "" ∧ eqIgnoreCase chW.remote.mac inpW.macTrim = true)
        ∨ (chW.remote.ip ≠ "" ∧ eqIgnoreCase chW.remote.ip inpW.ipTrim = true)
        ∨ (chW.remote.hostname ≠ ""
            ∧ eqIgnoreCase chW.remote.hostname inpW.hostTrim = true)) :=
  c1_host_filter_any_of inpW 7 chW (by decide) (by decide)

/-- An update naming a channel that matches nothing below. -/
def inpN : UpdateInput :=
  { macTrim := "", ipTrim := "", idTrim := "other", labelTrim := "",
    raw := none, value := none, unitTrim := "", hostTrim := "" }

theorem c2_identity_match_witness :
    processChannel inpN 7 (mkUdpChannel "zz") = (mkUdpChannel "zz", 0) :=
  (c2_identity_match inpN 7 (mkUdpChannel "zz") (by decide)).2.2 (by decide)

theorem c3_apply_records_cache_witness :
    (processChannel inpW 7 chW).1.remoteLastUpdate = 7 :=
  (c3_apply_records_cache inpW 7 chW (by decide)).1

/-- A hardware environment with all samples zero. -/
def envW : HwEnv := { a0 := 0, ads := fun _ => 0, adsInitialized := false }

/-- A udp-in channel that received a value at time 0. -/
def chStale : Channel :=
  { mkUdpChannel "s" with remoteHasValue := true, lastRemoteValue := 2 }

theorem c4_snapshot_status_witness :
    (snapshotRemoteOf 6000 chStale).status = "stale" :=
  ((c4_snapshot_status envW [] 6000 chStale (by decide)).2.2 (by decide)
    (by decide) (by decide)).2.2 (by decide)

theorem c5_idempotent_cache_witness :
    (updateRemoteValue (updateRemoteValue [chA0] argsA 100).1 argsA 200).1.get
        ⟨0, by decide⟩
      = (updateRemoteValue [chA0] argsA 100).1.get ⟨0, by decide⟩ :=
  ((c5_idempotent_cache [chA0] argsA 100 200).2.2 0 (by decide) (by decide)).2.2
    (by decide)

/-- A one-channel io configuration document. -/
def docIo : Json := Json.arr [Json.obj [("id", Json.str "c1"), ("type", Json.str "a0")]]

theorem c6_truncation_witness :
    (loadChannels docIo).length ≤ kMaxChannels :=
  (c6_truncation docIo [Json.obj [("id", Json.str "c1"), ("type", Json.str "a0")]]
    rfl).1

/-- A values message with no array, no channel object, and a top-level id. -/
def docW : Json := Json.obj [("cmd", Json.str "values"), ("id", Json.str "top")]

theorem c7_values_dispatch_witness :
    (handleIncomingPacket docW "9.9.9.9" [] 3).calls.length = 1 :=
  (c7_values_dispatch docW "9.9.9.9" [] 3 (Or.inl rfl)).2 (Or.inl rfl) rfl rfl
    (by decide)

/-- First discovery reply from MAC `AA:BB`. -/
def repA : Json :=
  Json.obj [("type", Json.str "discover_reply"), ("mac", Json.str "AA:BB")]

/-- Second discovery reply from the same MAC, different case and hostname. -/
def repB : Json :=
  Json.obj [("type", Json.str "discover_reply"), ("mac", Json.str "aa:bb"),
    ("hostname", Json.str "h2")]

theorem c8_discovery_dedup_witness :
    (([⟨repA, 10, "1.1.1.1"⟩, ⟨repB, 20, "2.2.2.2"⟩] : List ScanPacket).foldl
        (scanStep 50000 50001 0) { devices := [], reg := [] }).devices
      = [parseDiscoverReply repB "2.2.2.2" 50000 50001 20] :=
  (c8_discovery_dedup.2 repA repB "1.1.1.1" "2.2.2.2" 10 20 50000 50001 0 []
    rfl rfl (by decide) (by decide)).1

theorem c9_frame_invariant_witness :
    ((updateRemoteValue [chA0] argsA 5).1.get ⟨0, by decide⟩).id
      = ([chA0].get ⟨0, by decide⟩).id :=
  ((c9_frame_invariant [chA0] argsA 5).2 0 (by decide) (by decide)).1.1

/-- An update matching `chW` that carries neither finite raw nor value. -/
def inpE : UpdateInput :=
  { macTrim := "aa", ipTrim := "", idTrim := "temp1", labelTrim := "",
    raw := none, value := none, unitTrim := "", hostTrim := "" }

theorem c10_timestamp_without_data_witness :
    (processChannel inpE 9 chW).2 = 1
    ∧ (processChannel inpE 9 chW).1.remoteLastUpdate = 9 :=
  ⟨(c10_timestamp_without_data inpE 9 chW (by decide) rfl rfl rfl rfl).1,
   (c10_timestamp_without_data inpE 9 chW (by decide) rfl rfl rfl rfl).2.1⟩
